import Mathlib

/-!
Verification of the CSS fetch/cache/inject pipeline of the ai-chat-styles
userscripts.  The repository contains three variants of the same script:

* V2 — "Universal Website Styler.js" (userscript version 2.2, Berry Browser
  fix): single fetch transport, cache keyed by site name with TTL only,
  optional inline fallback CSS (`berryFallbackCSS`).
* V3 — "Universal_Website_Styler.js" (userscript version 3.0): cache with
  URL and version fingerprint, GM / Berry / direct / GitHub / CORS-proxy
  fetch cascade, style manager with three injection methods.
* V4 — jsDelivr CDN Edition (userscript version 4.0): multi-CDN list with
  process-lifetime promotion of the previously successful CDN, a
  process-wide `isFetching` flag, and a fetch-attempt log.

The embedding is shallow: network transports are oracles
(`url → Option body`, where `none` models a transport-level error —
timeout, network failure, abort, or a thrown fetch), `localStorage` /
`GM_*` storage reads are passed in as values (`none` = key absent,
`some none` = stored blob whose JSON parse fails), time is an explicit
`Nat` of milliseconds, and the DOM is a list of elements carrying the
attributes the scripts read back.  JavaScript strings are treated as
atoms; `encodeURIComponent` applied to an opaque URL is not modelled
(proxy-wrapped URLs are represented by prefixing the proxy address).
-/

/-- Number of UTF-16ish characters of a JS string (`s.length`); all CSS
handled by the scripts is ASCII so the char count is faithful. -/
def jsLen (s : String) : Nat := s.data.length

/-- Length of `s.trim()`: drop leading and trailing whitespace. -/
def jsTrimLen (s : String) : Nat :=
  ((s.data.dropWhile Char.isWhitespace).reverse.dropWhile Char.isWhitespace).length

/-- The character 0x7b, which `fetchFromURL` looks for to tell CSS from an
HTML error page. -/
def braceChar : Char := Char.ofNat 123

/-- `css.includes` applied to `braceChar`. -/
def containsBrace (s : String) : Bool := s.data.any (fun c => c == braceChar)

/-- `response.status >= 200 && response.status < 300` (also `response.ok`). -/
def statusOk (st : Nat) : Bool := decide (200 ≤ st) && decide (st < 300)

/-- A DOM element as far as the scripts inspect it: its `id`, whether it
carries a `data-method` attribute (every element the V3 style manager
injects does), and its `data-site` attribute (read, but never written, by
`styleManager.remove`). -/
structure Elem where
  id : String
  hasDataMethod : Bool
  dataSite : Option String
  deriving DecidableEq, Repr

namespace V2

/-- Per-site configuration of the v2.2 script (`SITES` entries). -/
structure Site where
  name : String
  styleURL : String
  backupStyleURL : String
  berryFallbackCSS : Option String
  deriving DecidableEq, Repr

/-- `CONFIG.CACHE_DURATION = 12 * 60 * 60 * 1000`. -/
def CACHE_DURATION : Nat := 12 * 60 * 60 * 1000

/-- The JSON blob `setCachedCSS` writes under `css_cache_<name>`. -/
structure CacheData where
  css : String
  timestamp : Nat
  url : String
  deriving DecidableEq, Repr

/-- `utils.getCachedCSS`: parse the stored blob and return the CSS unless
the entry is older than the TTL.  The stored `url` is not inspected. -/
def getCachedCSS (stored : Option CacheData) (now : Nat) : Option String :=
  match stored with
  | none => none
  | some data =>
    if now - data.timestamp > CACHE_DURATION then none
    else some data.css

/-- `utils.setCachedCSS`: record css, write time and the current primary
style URL. -/
def setCachedCSS (site : Site) (css : String) (now : Nat) : CacheData :=
  { css := css, timestamp := now, url := site.styleURL }

/-- allorigins proxy wrapper used for Berry Browser. -/
def proxyAllOrigins (u : String) : String :=
  "https://api.allorigins.win/raw?url=" ++ u

/-- corsproxy.io wrapper used for Berry Browser. -/
def proxyCorsproxy (u : String) : String :=
  "https://corsproxy.io/?" ++ u

/-- The `urls` array built inside `utils.fetchCSS`: primary, backup, and
for Berry Browser two proxy-wrapped copies of the primary URL. -/
def candidateURLs (site : Site) (isBerry : Bool) : List String :=
  [site.styleURL, site.backupStyleURL] ++
    (if isBerry then [proxyAllOrigins site.styleURL, proxyCorsproxy site.styleURL] else [])

/-- The `for (const url of urls)` loop of `utils.fetchCSS`: a transport
error (`none`) or an empty-after-trim body moves on to the next URL; the
first non-empty body wins. -/
def tryURLs (net : String → Option String) : List String → Option String
  | [] => none
  | u :: us =>
    match net u with
    | none => tryURLs net us
    | some css => if jsTrimLen css > 0 then some css else tryURLs net us

/-- The single failure `utils.fetchCSS` can surface: the
`throw new Error ("All fetch attempts failed")` at the end. -/
inductive FetchErr where
  | exhausted
  deriving DecidableEq, Repr

/-- `utils.fetchCSS`: cache first, then the URL walk, then the configured
inline fallback, and only with no fallback the thrown exhaustion error. -/
def fetchCSS (net : String → Option String) (stored : Option CacheData) (now : Nat)
    (site : Site) (isBerry : Bool) : Except FetchErr String :=
  match getCachedCSS stored now with
  | some cached => .ok cached
  | none =>
    match tryURLs net (candidateURLs site isBerry) with
    | some css => .ok css
    | none =>
      match site.berryFallbackCSS with
      | some fb => .ok fb
      | none => .error .exhausted

/-- `styleManager.injectCSS`: the style-element append either works
(`domOk`), or the catch branch falls back to `createBlobCSS` on Berry
Browser (`blobOk`) and to `false` elsewhere. -/
def injectCSS (domOk blobOk isBerry : Bool) : Bool :=
  if domOk then true
  else if isBerry then blobOk
  else false

/-- `styleManager.applyBerryFallback`: only on Berry Browser on
chatgpt.com, and only when the profile has inline fallback CSS. -/
def applyBerryFallback (site : Site) (isChatGPT isBerry : Bool) : Bool :=
  if !isChatGPT || !isBerry then false
  else site.berryFallbackCSS.isSome

/-- `styleManager.apply`.  The result is `Except FetchErr Bool` so that an
exception escaping `apply` uncaught would show up as `.error`; the inner
catch around `utils.fetchCSS` and the outer catch turn every failure into
a boolean return instead. -/
def apply (net : String → Option String) (stored : Option CacheData) (now : Nat)
    (site : Site) (isBerry isChatGPT domOk blobOk : Bool) : Except FetchErr Bool :=
  match fetchCSS net stored now site isBerry with
  | .error _ =>
    if isBerry && isChatGPT then .ok (applyBerryFallback site isChatGPT isBerry)
    else .ok false
  | .ok css =>
    if jsTrimLen css == 0 then .ok false
    else .ok (injectCSS domOk blobOk isBerry)

end V2

namespace V3

/-- Per-site configuration of the v3.0 script (`SITES` entries). -/
structure Site where
  name : String
  styleURL : String
  fallbackURL : Option String
  styleID : String
  enabledKey : String
  version : String
  deriving DecidableEq, Repr

/-- `CONFIG.CACHE_DURATION = 12 * 60 * 60 * 1000`. -/
def CACHE_DURATION : Nat := 12 * 60 * 60 * 1000

/-- The blob `setCachedCSS` stores under `css_cache_v3_<name>`. -/
structure CacheData where
  css : String
  timestamp : Nat
  url : String
  version : String
  size : Nat
  deriving DecidableEq, Repr

/-- `utils.getCachedCSS` (v3): fail closed when the stored URL differs
from the configured one, when the TTL has elapsed, or when the stored
version differs; `stored = none` covers both a missing key and a value
whose read failed (`getValue` returns the `null` default then). -/
def getCachedCSS (site : Site) (stored : Option CacheData) (now : Nat) : Option String :=
  match stored with
  | none => none
  | some data =>
    if data.url != site.styleURL then none
    else if now - data.timestamp > CACHE_DURATION then none
    else if data.version != site.version then none
    else some data.css

/-- `utils.setCachedCSS` (v3). -/
def setCachedCSS (site : Site) (css : String) (now : Nat) : CacheData :=
  { css := css, timestamp := now, url := site.styleURL,
    version := site.version, size := jsLen css }

/-- `utils.getValue` specialised to booleans: `none` = key absent,
`some none` = GM read or JSON parse failed (caught, default returned),
`some (some v)` = stored boolean. -/
def getValueB (stored : Option (Option Bool)) (deflt : Bool) : Bool :=
  match stored with
  | none => deflt
  | some none => deflt
  | some (some v) => v

/-- `utils.getCurrentSiteEnabled`: `getValue(state.site.enabledKey, true)`. -/
def getCurrentSiteEnabled (stored : Option (Option Bool)) : Bool :=
  getValueB stored true

/-- `cssLoader.fetchViaGM`: `gm` is the `GM_xmlhttpRequest` outcome,
`none` for `onerror`/`ontimeout`.  Resolves only on a 2xx status with a
non-empty body. -/
def fetchViaGM (gm : Option (Nat × String)) : Option String :=
  match gm with
  | none => none
  | some (st, body) =>
    if statusOk st then
      if jsTrimLen body == 0 then none else some body
    else none

/-- The four fetch-option strategies `fetchForBerryBrowser` walks. -/
def BERRY_STRATEGIES : List String :=
  ["cors-mode", "no-cors-mode", "cors-no-cache", "no-cors-no-cache"]

/-- The strategy loop of `fetchForBerryBrowser`: a body qualifies only if
its trimmed length exceeds 10 (no status is observable under no-cors). -/
def berryTry (bnet : String → Option String) : List String → Option String
  | [] => none
  | strat :: rest =>
    match bnet strat with
    | none => berryTry bnet rest
    | some css => if 10 < jsTrimLen css then some css else berryTry bnet rest

/-- `cssLoader.fetchForBerryBrowser`: the strategy walk on the primary
URL, then one no-cors attempt on the GitHub fallback URL (status unused,
trimmed length must exceed 10); `none` models the final throw. -/
def fetchForBerryBrowser (bnet : String → Option String)
    (net : String → Option (Nat × String)) (site : Site) : Option String :=
  match berryTry bnet BERRY_STRATEGIES with
  | some css => some css
  | none =>
    match site.fallbackURL with
    | none => none
    | some f =>
      match net f with
      | none => none
      | some (_, body) => if 10 < jsTrimLen body then some body else none

/-- `cssLoader.fetchDirect`: plain `fetch` of the primary URL; throws on a
non-ok status or an empty-after-trim body (`none`). -/
def fetchDirect (net : String → Option (Nat × String)) (url : String) : Option String :=
  match net url with
  | none => none
  | some (st, body) =>
    if !statusOk st then none
    else if jsTrimLen body == 0 then none
    else some body

/-- `cssLoader.fetchGitHubFallback`: like `fetchDirect` but on the
configured fallback URL; throws when none is configured. -/
def fetchGitHubFallback (net : String → Option (Nat × String))
    (fallbackURL : Option String) : Option String :=
  match fallbackURL with
  | none => none
  | some f =>
    match net f with
    | none => none
    | some (st, body) =>
      if !statusOk st then none
      else if jsTrimLen body == 0 then none
      else some body

/-- The `primaryProxies` array of `fetchViaCORSProxy`. -/
def primaryProxies (site : Site) : List String :=
  [ "https://corsproxy.io/?" ++ site.styleURL,
    "https://api.codetabs.com/v1/proxy?quest=" ++ site.styleURL,
    "https://api.allorigins.win/raw?url=" ++ site.styleURL,
    site.styleURL ]

/-- The `fallbackProxies` array of `fetchViaCORSProxy`. -/
def fallbackProxies (f : String) : List String :=
  [ "https://corsproxy.io/?" ++ f,
    "https://api.codetabs.com/v1/proxy?quest=" ++ f,
    "https://api.allorigins.win/raw?url=" ++ f ]

/-- One proxy loop of `fetchViaCORSProxy`: ok status and non-empty body;
every failure (including the rethrow after the last fallback proxy)
surfaces as `none` of the loop. -/
def proxyLoop (net : String → Option (Nat × String)) : List String → Option String
  | [] => none
  | u :: us =>
    match net u with
    | none => proxyLoop net us
    | some (st, body) =>
      if !statusOk st then proxyLoop net us
      else if jsTrimLen body > 0 then some body
      else proxyLoop net us

/-- `cssLoader.fetchViaCORSProxy`: jsDelivr-wrapping proxies first, then
the GitHub URL through the proxies when configured. -/
def fetchViaCORSProxy (net : String → Option (Nat × String)) (site : Site) : Option String :=
  match proxyLoop net (primaryProxies site) with
  | some css => some css
  | none =>
    match site.fallbackURL with
    | none => none
    | some f => proxyLoop net (fallbackProxies f)

/-- The one error `fetchExternalCSS` can surface to its caller:
`throw new Error ("Could not fetch CSS from any source")`. -/
inductive FetchErr where
  | exhausted
  deriving DecidableEq, Repr

/-- `cssLoader.fetchExternalCSS`: cache, then the GM / Berry / direct /
GitHub-fallback / CORS-proxy cascade; each stage failure is caught and the
next stage tried, and only total exhaustion raises the single error. -/
def fetchExternalCSS (hasGrants isBerry : Bool) (gm : Option (Nat × String))
    (bnet : String → Option String) (net : String → Option (Nat × String))
    (site : Site) (cached : Option String) : Except FetchErr String :=
  match cached with
  | some c => .ok c
  | none =>
    match (if hasGrants then fetchViaGM gm else none) with
    | some css => .ok css
    | none =>
      match (if isBerry then fetchForBerryBrowser bnet net site else none) with
      | some css => .ok css
      | none =>
        match fetchDirect net site.styleURL with
        | some css => .ok css
        | none =>
          match fetchGitHubFallback net site.fallbackURL with
          | some css => .ok css
          | none =>
            match fetchViaCORSProxy net site with
            | some css => .ok css
            | none => .error .exhausted

/-- `styleManager.isApplied`: `!!document.getElementById(styleID)`. -/
def isApplied (sid : String) (doc : List Elem) : Bool :=
  (doc.find? (fun e => e.id == sid)).isSome

/-- `styleManager.remove`: remove the element `getElementById` returns,
then every `[data-method]` element whose id matches the style id or whose
`data-site` matches the current domain. -/
def removeStyles (sid domain : String) (doc : List Elem) : List Elem :=
  (doc.eraseP (fun e => e.id == sid)).filter
    (fun e => !(e.hasDataMethod && (e.id == sid || e.dataSite == some domain)))

/-- DOM/network behaviour the three injection methods depend on:
whether `document.head` exists, whether the blob link fires `onload` (or
shows a `sheet` in the verification window), whether its `onerror` fires,
and the same for the external link. -/
structure DomEnv where
  headPresent : Bool
  blobLoads : Bool
  blobErrorFires : Bool
  extLoads : Bool
  extErrorFires : Bool
  deriving DecidableEq, Repr

/-- `styleManager.injectViaBlob`: on `onload`/verified `sheet` the link
stays and the method succeeds; on `onerror` the link removes itself; on a
silent verification timeout the link stays but the method reports
failure. -/
def injectViaBlob (env : DomEnv) (sid : String) (doc : List Elem) : Bool × List Elem :=
  if !env.headPresent then (false, doc)
  else if env.blobLoads then (true, doc ++ [{ id := sid, hasDataMethod := true, dataSite := none }])
  else if env.blobErrorFires then (false, doc)
  else (false, doc ++ [{ id := sid, hasDataMethod := true, dataSite := none }])

/-- `styleManager.injectViaStyle`: synchronous append, succeeds whenever
`document.head` exists. -/
def injectViaStyle (env : DomEnv) (sid : String) (doc : List Elem) : Bool × List Elem :=
  if !env.headPresent then (false, doc)
  else (true, doc ++ [{ id := sid, hasDataMethod := true, dataSite := none }])

/-- `styleManager.injectViaExternalLink`: like the blob link but pointed
at the remote URL, with a 3s give-up that leaves the link in place. -/
def injectViaExternalLink (env : DomEnv) (sid : String) (doc : List Elem) : Bool × List Elem :=
  if !env.headPresent then (false, doc)
  else if env.extLoads then (true, doc ++ [{ id := sid, hasDataMethod := true, dataSite := none }])
  else if env.extErrorFires then (false, doc)
  else (false, doc ++ [{ id := sid, hasDataMethod := true, dataSite := none }])

/-- The `methods` loop inside `styleManager.apply`: blob link, then style
element, then external link; the first verified success wins. -/
def applyMethods (env : DomEnv) (sid : String) (doc : List Elem) : Bool × List Elem :=
  match injectViaBlob env sid doc with
  | (true, d) => (true, d)
  | (false, d) =>
    match injectViaStyle env sid d with
    | (true, d2) => (true, d2)
    | (false, d2) => injectViaExternalLink env sid d2

/-- `styleManager.apply`: bail out when disabled, when another apply is in
flight (`state.isLoading`), or when throttled; otherwise remove existing
styles and run the method loop.  `css` is `state.cssContent` after the
fetch step: `none` when `fetchExternalCSS` threw (the catch turns that
into a `false` return). -/
def apply (env : DomEnv) (enabled isLoading throttled : Bool) (css : Option String)
    (sid domain : String) (doc : List Elem) : Bool × List Elem :=
  if !enabled || isLoading then (false, doc)
  else if throttled then (false, doc)
  else
    let d0 := removeStyles sid domain doc
    match css with
    | none => (false, d0)
    | some c =>
      if jsTrimLen c == 0 then (false, d0)
      else applyMethods env sid d0

end V3

namespace V4

/-- Per-site configuration of the v4.0 script (`SITES` entries). -/
structure Site where
  name : String
  cdnURLs : List String
  styleID : String
  enabledKey : String
  deriving DecidableEq, Repr

/-- `CONFIG.CACHE_DURATION = 24 * 60 * 60 * 1000`. -/
def CACHE_DURATION : Nat := 24 * 60 * 60 * 1000

/-- `CONFIG.MAX_RETRIES = 2`: total number of passes over the CDN matrix. -/
def MAX_RETRIES : Nat := 2

/-- The blob `saveToCache` stores under `css_cache_v4_<name>`. -/
structure CacheEntry where
  css : String
  timestamp : Nat
  cdnURL : String
  deriving DecidableEq, Repr

/-- One element of `state.fetchAttempts` (the fields the code branches
on; duration and size are diagnostics only). -/
structure FetchAttempt where
  url : String
  method : String
  success : Bool
  deriving DecidableEq, Repr

/-- The `state` object of the v4 script (the fields the fetcher touches). -/
structure St where
  cssContent : Option String
  isEnabled : Bool
  isFetching : Bool
  successfulCDN : Option String
  fetchAttempts : List FetchAttempt
  deriving DecidableEq, Repr

/-- `utils.getFromCache`: `stored = none` is a missing key, `some none` a
blob whose `JSON.parse` throws (caught, `null` returned); a hit also
records the cached entry's CDN in `state.successfulCDN`. -/
def getFromCache (stored : Option (Option CacheEntry)) (now : Nat) (s : St) :
    Option String × St :=
  match stored with
  | none => (none, s)
  | some none => (none, s)
  | some (some e) =>
    if now - e.timestamp > CACHE_DURATION then (none, s)
    else (some e.css, { s with successfulCDN := some e.cdnURL })

/-- `utils.saveToCache`. -/
def saveToCache (css cdnURL : String) (now : Nat) : CacheEntry :=
  { css := css, timestamp := now, cdnURL := cdnURL }

/-- `Array.prototype.indexOf` on a list of URLs: -1 when absent. -/
def jsIndexOf : List String → String → Int
  | [], _ => -1
  | x :: xs, u =>
    if x == u then 0
    else
      let r := jsIndexOf xs u
      if r < 0 then -1 else r + 1

/-- `cssFetcher.getOptimizedCDNOrder`: copy the configured CDN list and,
when the previously successful CDN sits at a positive index, splice it out
and unshift it to the front. -/
def getOptimizedCDNOrder (site : Site) (s : St) : List String :=
  match s.successfulCDN with
  | none => site.cdnURLs
  | some u =>
    let i := jsIndexOf site.cdnURLs u
    if i > 0 then u :: site.cdnURLs.eraseIdx i.toNat else site.cdnURLs

/-- `cssFetcher.fetchFromURL`: `net url method` is the transport outcome
(`none` = network error, timeout or non-2xx, all of which throw before the
body checks).  A body is accepted only if non-empty after trimming, at
least 10 characters long, and containing a brace; every attempt is logged
and a success records the URL in `state.successfulCDN`. -/
def fetchFromURL (net : String → String → Option String) (url method : String)
    (s : St) : Option String × St :=
  match net url method with
  | none =>
    (none, { s with fetchAttempts :=
      s.fetchAttempts ++ [{ url := url, method := method, success := false }] })
  | some css =>
    if jsTrimLen css == 0 then
      (none, { s with fetchAttempts :=
        s.fetchAttempts ++ [{ url := url, method := method, success := false }] })
    else if jsLen css < 10 || !containsBrace css then
      (none, { s with fetchAttempts :=
        s.fetchAttempts ++ [{ url := url, method := method, success := false }] })
    else
      (some css,
       { s with
          fetchAttempts :=
            s.fetchAttempts ++ [{ url := url, method := method, success := true }],
          successfulCDN := some url })

/-- The `methods` array of `fetchCSS`. -/
def METHODS : List String := ["fetch", "xhr"]

/-- The inner `for (const method of methods)` loop: first accepted body
wins, paired with the URL it came from. -/
def tryMethods (net : String → String → Option String) (url : String) :
    List String → St → Option (String × String) × St
  | [], s => (none, s)
  | m :: ms, s =>
    match fetchFromURL net url m s with
    | (some css, s2) => (some (css, url), s2)
    | (none, s2) => tryMethods net url ms s2

/-- The `for (const url of cdnURLs)` loop. -/
def tryURLs (net : String → String → Option String) :
    List String → St → Option (String × String) × St
  | [], s => (none, s)
  | u :: us, s =>
    match tryMethods net u METHODS s with
    | (some r, s2) => (some r, s2)
    | (none, s2) => tryURLs net us s2

/-- The `for (let retry = 0; retry < MAX_RETRIES; ...)` passes (the
backoff sleep between passes has no observable effect here). -/
def tryRounds (net : String → String → Option String) (urls : List String) :
    Nat → St → Option (String × String) × St
  | 0, s => (none, s)
  | n + 1, s =>
    match tryURLs net urls s with
    | (some r, s2) => (some r, s2)
    | (none, s2) => tryRounds net urls n s2

/-- `cssFetcher.fetchCSS`: bail out while a fetch is in flight; otherwise
raise the flag, reset the attempt log, consult the cache, and on a miss
walk the optimized CDN order with both methods for up to `MAX_RETRIES`
passes.  Returns the css (`none` on exhaustion), the final state, and the
cache entry written on success. -/
def fetchCSS (net : String → String → Option String)
    (stored : Option (Option CacheEntry)) (now : Nat) (site : Site) (s : St) :
    Option String × St × Option CacheEntry :=
  if s.isFetching then (none, s, none)
  else
    match getFromCache stored now { s with isFetching := true, fetchAttempts := [] } with
    | (some css, s2) =>
      (some css, { s2 with cssContent := some css, isFetching := false }, none)
    | (none, s2) =>
      match tryRounds net (getOptimizedCDNOrder site s2) MAX_RETRIES s2 with
      | (some r, s3) =>
        (some r.1,
         { s3 with cssContent := some r.1, isFetching := false },
         some (saveToCache r.1 r.2 now))
      | (none, s3) => (none, { s3 with isFetching := false }, none)

/-- `utils.getEnabled` (v4): absent key or failed parse default to true. -/
def getEnabled (stored : Option (Option Bool)) : Bool :=
  match stored with
  | none => true
  | some none => true
  | some (some v) => v

/-- `styleInjector.remove` (v4): remove the element `getElementById`
returns, if any. -/
def removeStyle (sid : String) (doc : List Elem) : List Elem :=
  doc.eraseP (fun e => e.id == sid)

/-- `styleInjector.inject` (v4): reject empty css, otherwise remove any
existing artifact and append one inline style element (which carries
`data-source`, not `data-method`). -/
def inject (sid css : String) (doc : List Elem) : Bool × List Elem :=
  if jsTrimLen css == 0 then (false, doc)
  else (true, removeStyle sid doc ++ [{ id := sid, hasDataMethod := false, dataSite := none }])

end V4

section Helpers

/-- A positive `indexOf` result implies membership. -/
theorem V4.jsIndexOf_ne_neg_one_mem {l : List String} {u : String}
    (h : V4.jsIndexOf l u ≠ -1) : u ∈ l := by
  induction l with
  | nil => simp [V4.jsIndexOf] at h
  | cons x xs ih =>
    by_cases hx : (x == u) = true
    · exact (beq_iff_eq.mp hx) ▸ List.mem_cons_self x xs
    · simp only [V4.jsIndexOf, hx, if_false] at h
      by_cases hr : V4.jsIndexOf xs u < 0
      · simp [hr] at h
      · refine List.mem_cons_of_mem x (ih ?_)
        intro heq
        rw [heq] at hr
        exact hr (by norm_num)

/-- Every URL in the optimized order came from the configured CDN list. -/
theorem V4.mem_getOptimizedCDNOrder {site : V4.Site} {s : V4.St} {u : String}
    (h : u ∈ V4.getOptimizedCDNOrder site s) : u ∈ site.cdnURLs := by
  unfold V4.getOptimizedCDNOrder at h
  rcases hs : s.successfulCDN with _ | v
  · rw [hs] at h; exact h
  · rw [hs] at h
    simp only at h
    by_cases hi : V4.jsIndexOf site.cdnURLs v > 0
    · rw [if_pos hi] at h
      rcases List.mem_cons.mp h with h1 | h2
      · subst h1
        exact V4.jsIndexOf_ne_neg_one_mem (by intro hv; rw [hv] at hi; exact absurd hi (by norm_num))
      · exact (site.cdnURLs.eraseIdx_sublist _).subset h2
    · rw [if_neg hi] at h; exact h

end Helpers

section FetchLemmas

/-- `fetchFromURL` appends exactly one attempt record, for its own URL and
method. -/
theorem V4.fetchFromURL_attempts (net : String → String → Option String)
    (url method : String) (s : V4.St) :
    ∃ ok, (V4.fetchFromURL net url method s).2.fetchAttempts =
      s.fetchAttempts ++ [{ url := url, method := method, success := ok }] := by
  unfold V4.fetchFromURL
  rcases net url method with _ | css
  · exact ⟨false, rfl⟩
  · by_cases h1 : jsTrimLen css == 0
    · exact ⟨false, by simp [h1]⟩
    · by_cases h2 : jsLen css < 10 || !containsBrace css
      · exact ⟨false, by simp [h1, h2]⟩
      · exact ⟨true, by simp [h1, h2]⟩

/-- A failing transport never touches the attempt log shape: the method
loop only ever appends. -/
theorem V4.tryMethods_attempts (net : String → String → Option String) (url : String) :
    ∀ (ms : List String) (s : V4.St),
      ∃ l, (V4.tryMethods net url ms s).2.fetchAttempts = s.fetchAttempts ++ l := by
  intro ms
  induction ms with
  | nil => intro s; exact ⟨[], by simp [V4.tryMethods]⟩
  | cons m rest ih =>
    intro s
    obtain ⟨ok, hok⟩ := V4.fetchFromURL_attempts net url m s
    simp only [V4.tryMethods]
    rcases hf : V4.fetchFromURL net url m s with ⟨o, s2⟩
    rw [hf] at hok
    have hok2 : s2.fetchAttempts =
        s.fetchAttempts ++ [{ url := url, method := m, success := ok }] := hok
    rcases o with _ | css
    · obtain ⟨l, hl⟩ := ih s2
      refine ⟨[{ url := url, method := m, success := ok }] ++ l, ?_⟩
      show (V4.tryMethods net url rest s2).2.fetchAttempts = _
      rw [hl, hok2, List.append_assoc]
    · exact ⟨[{ url := url, method := m, success := ok }], hok2⟩

/-- The URL loop only appends to the attempt log. -/
theorem V4.tryURLs_attempts (net : String → String → Option String) :
    ∀ (urls : List String) (s : V4.St),
      ∃ l, (V4.tryURLs net urls s).2.fetchAttempts = s.fetchAttempts ++ l := by
  intro urls
  induction urls with
  | nil => intro s; exact ⟨[], by simp [V4.tryURLs]⟩
  | cons u rest ih =>
    intro s
    obtain ⟨l1, h1⟩ := V4.tryMethods_attempts net u V4.METHODS s
    simp only [V4.tryURLs]
    rcases hf : V4.tryMethods net u V4.METHODS s with ⟨o, s2⟩
    rw [hf] at h1
    have h1b : s2.fetchAttempts = s.fetchAttempts ++ l1 := h1
    rcases o with _ | r
    · obtain ⟨l2, h2⟩ := ih s2
      refine ⟨l1 ++ l2, ?_⟩
      show (V4.tryURLs net rest s2).2.fetchAttempts = _
      rw [h2, h1b, List.append_assoc]
    · exact ⟨l1, h1b⟩

/-- The retry passes only append to the attempt log. -/
theorem V4.tryRounds_attempts (net : String → String → Option String)
    (urls : List String) :
    ∀ (n : Nat) (s : V4.St),
      ∃ l, (V4.tryRounds net urls n s).2.fetchAttempts = s.fetchAttempts ++ l := by
  intro n
  induction n with
  | zero => intro s; exact ⟨[], by simp [V4.tryRounds]⟩
  | succ k ih =>
    intro s
    obtain ⟨l1, h1⟩ := V4.tryURLs_attempts net urls s
    simp only [V4.tryRounds]
    rcases hf : V4.tryURLs net urls s with ⟨o, s2⟩
    rw [hf] at h1
    have h1b : s2.fetchAttempts = s.fetchAttempts ++ l1 := h1
    rcases o with _ | r
    · obtain ⟨l2, h2⟩ := ih s2
      refine ⟨l1 ++ l2, ?_⟩
      show (V4.tryRounds net urls k s2).2.fetchAttempts = _
      rw [h2, h1b, List.append_assoc]
    · exact ⟨l1, h1b⟩

/-- With at least one method, the very first record the method loop
writes is for its URL with the given head method. -/
theorem V4.tryMethods_first (net : String → String → Option String)
    (url m : String) (ms : List String) (s : V4.St) :
    ∃ ok l, (V4.tryMethods net url (m :: ms) s).2.fetchAttempts =
      s.fetchAttempts ++ ({ url := url, method := m, success := ok } :: l) := by
  obtain ⟨ok, hok⟩ := V4.fetchFromURL_attempts net url m s
  simp only [V4.tryMethods]
  rcases hf : V4.fetchFromURL net url m s with ⟨o, s2⟩
  rw [hf] at hok
  have hok2 : s2.fetchAttempts =
      s.fetchAttempts ++ [{ url := url, method := m, success := ok }] := hok
  rcases o with _ | css
  · obtain ⟨l, hl⟩ := V4.tryMethods_attempts net url ms s2
    refine ⟨ok, l, ?_⟩
    show (V4.tryMethods net url ms s2).2.fetchAttempts = _
    rw [hl, hok2, List.append_assoc, List.singleton_append]
  · exact ⟨ok, [], hok2⟩

/-- With a non-empty URL list, the first record of the URL walk is an
attempt on the head URL via `fetch`. -/
theorem V4.tryURLs_first (net : String → String → Option String)
    (u : String) (us : List String) (s : V4.St) :
    ∃ ok l, (V4.tryURLs net (u :: us) s).2.fetchAttempts =
      s.fetchAttempts ++ ({ url := u, method := "fetch", success := ok } :: l) := by
  obtain ⟨ok, l1, h1⟩ := V4.tryMethods_first net u "fetch" ["xhr"] s
  simp only [V4.tryURLs, V4.METHODS]
  rcases hf : V4.tryMethods net u ["fetch", "xhr"] s with ⟨o, s2⟩
  rw [hf] at h1
  have h1b : s2.fetchAttempts =
      s.fetchAttempts ++ ({ url := u, method := "fetch", success := ok } :: l1) := h1
  rcases o with _ | r
  · obtain ⟨l2, h2⟩ := V4.tryURLs_attempts net us s2
    refine ⟨ok, l1 ++ l2, ?_⟩
    show (V4.tryURLs net us s2).2.fetchAttempts = _
    rw [h2, h1b, List.append_assoc, List.cons_append]
  · exact ⟨ok, l1, h1b⟩

/-- With at least one retry pass, the first attempt of the whole matrix
walk is on the head URL via `fetch`. -/
theorem V4.tryRounds_first (net : String → String → Option String)
    (u : String) (us : List String) (k : Nat) (s : V4.St) :
    ∃ ok l, (V4.tryRounds net (u :: us) (k + 1) s).2.fetchAttempts =
      s.fetchAttempts ++ ({ url := u, method := "fetch", success := ok } :: l) := by
  obtain ⟨ok, l1, h1⟩ := V4.tryURLs_first net u us s
  simp only [V4.tryRounds]
  rcases hf : V4.tryURLs net (u :: us) s with ⟨o, s2⟩
  rw [hf] at h1
  have h1b : s2.fetchAttempts =
      s.fetchAttempts ++ ({ url := u, method := "fetch", success := ok } :: l1) := h1
  rcases o with _ | r
  · obtain ⟨l2, h2⟩ := V4.tryRounds_attempts net (u :: us) k s2
    refine ⟨ok, l1 ++ l2, ?_⟩
    show (V4.tryRounds net (u :: us) k s2).2.fetchAttempts = _
    rw [h2, h1b, List.append_assoc, List.cons_append]
  · exact ⟨ok, l1, h1b⟩

end FetchLemmas

section ExhaustionLemmas

/-- If every transport attempt on a URL errors, the method loop fails. -/
theorem V4.tryMethods_fail {net : String → String → Option String} {u : String}
    (hu : ∀ m, net u m = none) :
    ∀ (ms : List String) (s : V4.St), (V4.tryMethods net u ms s).1 = none := by
  intro ms
  induction ms with
  | nil => intro s; simp [V4.tryMethods]
  | cons m rest ih =>
    intro s
    simp only [V4.tryMethods, V4.fetchFromURL, hu m]
    exact ih _

/-- If every attempt on every candidate URL errors, the URL walk fails. -/
theorem V4.tryURLs_fail {net : String → String → Option String} {urls : List String}
    (h : ∀ u ∈ urls, ∀ m, net u m = none) :
    ∀ s : V4.St, (V4.tryURLs net urls s).1 = none := by
  induction urls with
  | nil => intro s; simp [V4.tryURLs]
  | cons u rest ih =>
    intro s
    simp only [V4.tryURLs]
    rcases hf : V4.tryMethods net u V4.METHODS s with ⟨o, s2⟩
    have ho : o = none := by
      have := V4.tryMethods_fail (h u (List.mem_cons_self u rest)) V4.METHODS s
      rw [hf] at this
      exact this
    subst ho
    exact ih (fun v hv m => h v (List.mem_cons_of_mem u hv) m) s2

/-- If every attempt on every candidate URL errors, all retry passes fail. -/
theorem V4.tryRounds_fail {net : String → String → Option String} {urls : List String}
    (h : ∀ u ∈ urls, ∀ m, net u m = none) :
    ∀ (n : Nat) (s : V4.St), (V4.tryRounds net urls n s).1 = none := by
  intro n
  induction n with
  | zero => intro s; simp [V4.tryRounds]
  | succ k ih =>
    intro s
    simp only [V4.tryRounds]
    rcases hf : V4.tryURLs net urls s with ⟨o, s2⟩
    have ho : o = none := by
      have := V4.tryURLs_fail h s
      rw [hf] at this
      exact this
    subst ho
    exact ih s2

/-- V2: with every candidate transport erroring, the URL walk fails. -/
theorem V2.tryURLs_exhausted {net : String → Option String} {urls : List String}
    (h : ∀ u ∈ urls, net u = none) : V2.tryURLs net urls = none := by
  induction urls with
  | nil => simp [V2.tryURLs]
  | cons u rest ih =>
    simp only [V2.tryURLs, h u (List.mem_cons_self u rest)]
    exact ih (fun v hv => h v (List.mem_cons_of_mem u hv))

/-- V3: with every strategy fetch erroring, the Berry walk fails. -/
theorem V3.berryTry_fail {bnet : String → Option String} {strats : List String}
    (h : ∀ st ∈ strats, bnet st = none) : V3.berryTry bnet strats = none := by
  induction strats with
  | nil => simp [V3.berryTry]
  | cons st rest ih =>
    simp only [V3.berryTry, h st (List.mem_cons_self st rest)]
    exact ih (fun v hv => h v (List.mem_cons_of_mem st hv))

/-- V3: with every proxy URL erroring, the proxy loop fails. -/
theorem V3.proxyLoop_fail {net : String → Option (Nat × String)} {urls : List String}
    (h : ∀ u ∈ urls, net u = none) : V3.proxyLoop net urls = none := by
  induction urls with
  | nil => simp [V3.proxyLoop]
  | cons u rest ih =>
    simp only [V3.proxyLoop, h u (List.mem_cons_self u rest)]
    exact ih (fun v hv => h v (List.mem_cons_of_mem u hv))

/-- All URLs the v3 cascade can request over the status-observing
transport: the primary, the GitHub fallback, and both proxy batches. -/
def V3.candidateURLs (site : V3.Site) : List String :=
  [site.styleURL] ++
    (match site.fallbackURL with | some f => [f] | none => []) ++
    V3.primaryProxies site ++
    (match site.fallbackURL with | some f => V3.fallbackProxies f | none => [])

/-- V3: if the GM request, every Berry strategy and every candidate URL
fail at transport level, `fetchExternalCSS` on a cache miss surfaces
exactly its single exhaustion error. -/
theorem V3.fetchExternalCSS_exhausted (hasGrants isBerry : Bool)
    {gm : Option (Nat × String)} {bnet : String → Option String}
    {net : String → Option (Nat × String)} {site : V3.Site}
    (hgm : gm = none)
    (hbnet : ∀ st ∈ V3.BERRY_STRATEGIES, bnet st = none)
    (hnet : ∀ u ∈ V3.candidateURLs site, net u = none) :
    V3.fetchExternalCSS hasGrants isBerry gm bnet net site none = .error .exhausted := by
  have hstyle : net site.styleURL = none := by
    apply hnet; simp [V3.candidateURLs]
  have hfb : ∀ f, site.fallbackURL = some f → net f = none := by
    intro f hff
    apply hnet
    simp [V3.candidateURLs, hff]
  have hpp : ∀ u ∈ V3.primaryProxies site, net u = none := by
    intro u hu
    apply hnet
    simp [V3.candidateURLs, hu]
  have hfp : ∀ f, site.fallbackURL = some f → ∀ u ∈ V3.fallbackProxies f, net u = none := by
    intro f hff u hu
    apply hnet
    simp [V3.candidateURLs, hff, hu]
  have hberry : V3.fetchForBerryBrowser bnet net site = none := by
    unfold V3.fetchForBerryBrowser
    rw [V3.berryTry_fail hbnet]
    rcases hff : site.fallbackURL with _ | f
    · rfl
    · simp [hfb f hff]
  have hdirect : V3.fetchDirect net site.styleURL = none := by
    unfold V3.fetchDirect
    rw [hstyle]
  have hgh : V3.fetchGitHubFallback net site.fallbackURL = none := by
    unfold V3.fetchGitHubFallback
    rcases hff : site.fallbackURL with _ | f
    · rfl
    · simp [hfb f hff]
  have hproxy : V3.fetchViaCORSProxy net site = none := by
    unfold V3.fetchViaCORSProxy
    rw [V3.proxyLoop_fail hpp]
    rcases hff : site.fallbackURL with _ | f
    · rfl
    · simp [V3.proxyLoop_fail (hfp f hff)]
  unfold V3.fetchExternalCSS
  rw [hgm]
  rcases hasGrants <;> rcases isBerry <;>
    simp [V3.fetchViaGM, hberry, hdirect, hgh, hproxy]

end ExhaustionLemmas

section DomLemmas

/-- `isApplied` is exactly "some element with the style id is present". -/
theorem V3.isApplied_eq_true_iff (sid : String) (doc : List Elem) :
    V3.isApplied sid doc = true ↔ ∃ e ∈ doc, e.id = sid := by
  unfold V3.isApplied
  rw [Option.isSome_iff_exists]
  constructor
  · rintro ⟨e, he⟩
    have hp := List.find?_some he
    exact ⟨e, List.mem_of_find?_eq_some he, beq_iff_eq.mp hp⟩
  · rintro ⟨e, hmem, hid⟩
    have : (doc.find? (fun e => e.id == sid)).isSome := by
      rw [List.find?_isSome]
      exact ⟨e, hmem, beq_iff_eq.mpr hid⟩
    rcases Option.isSome_iff_exists.mp this with ⟨x, hx⟩
    exact ⟨x, hx⟩

/-- Elements surviving `removeStyles` were in the original document. -/
theorem V3.mem_of_mem_removeStyles {sid domain : String} {doc : List Elem} {e : Elem}
    (h : e ∈ V3.removeStyles sid domain doc) : e ∈ doc := by
  unfold V3.removeStyles at h
  exact List.mem_of_mem_eraseP (List.mem_filter.mp h).1

/-- After `styleManager.remove`, no artifact element (one carrying
`data-method`) with the style id survives; if every element bearing the
style id is such an artifact, `isApplied` is false. -/
theorem V3.isApplied_removeStyles (sid domain : String) (doc : List Elem)
    (hart : ∀ e ∈ doc, e.id = sid → e.hasDataMethod = true) :
    V3.isApplied sid (V3.removeStyles sid domain doc) = false := by
  rw [Bool.eq_false_iff]
  intro htrue
  obtain ⟨e, hmem, hid⟩ := (V3.isApplied_eq_true_iff _ _).mp htrue
  have hdoc : e ∈ doc := V3.mem_of_mem_removeStyles hmem
  have hdm : e.hasDataMethod = true := hart e hdoc hid
  have hfil := (List.mem_filter.mp hmem).2
  simp [hdm, hid] at hfil

/-- `removeStyles` is idempotent on documents whose id-bearing elements
are all artifacts. -/
theorem V3.removeStyles_idem (sid domain : String) (doc : List Elem)
    (hart : ∀ e ∈ doc, e.id = sid → e.hasDataMethod = true) :
    V3.removeStyles sid domain (V3.removeStyles sid domain doc) =
      V3.removeStyles sid domain doc := by
  have hnone : ∀ e ∈ V3.removeStyles sid domain doc,
      ¬((fun e : Elem => e.id == sid) e = true) := by
    intro e hmem hbeq
    have hid : e.id = sid := beq_iff_eq.mp hbeq
    have hdm := hart e (V3.mem_of_mem_removeStyles hmem) hid
    have hfil := (List.mem_filter.mp hmem).2
    simp [hdm, hid] at hfil
  have hpass : ∀ e ∈ V3.removeStyles sid domain doc,
      (fun e : Elem => !(e.hasDataMethod && (e.id == sid || e.dataSite == some domain))) e
        = true := by
    intro e hmem
    exact (List.mem_filter.mp hmem).2
  show ((V3.removeStyles sid domain doc).eraseP (fun e => e.id == sid)).filter
      (fun e => !(e.hasDataMethod && (e.id == sid || e.dataSite == some domain))) =
    V3.removeStyles sid domain doc
  rw [List.eraseP_of_forall_not hnone]
  exact List.filter_eq_self.mpr hpass

/-- A verified blob injection appended one artifact with the style id. -/
theorem V3.injectViaBlob_true (env : V3.DomEnv) (sid : String) (doc d : List Elem)
    (h : V3.injectViaBlob env sid doc = (true, d)) :
    d = doc ++ [{ id := sid, hasDataMethod := true, dataSite := none }] := by
  unfold V3.injectViaBlob at h
  split at h
  · exact absurd ((Prod.mk.injEq _ _ _ _).mp h).1 (by simp)
  · split at h
    · exact ((Prod.mk.injEq _ _ _ _).mp h).2.symm
    · split at h
      · exact absurd ((Prod.mk.injEq _ _ _ _).mp h).1 (by simp)
      · exact absurd ((Prod.mk.injEq _ _ _ _).mp h).1 (by simp)

/-- A verified style-element injection appended one artifact. -/
theorem V3.injectViaStyle_true (env : V3.DomEnv) (sid : String) (doc d : List Elem)
    (h : V3.injectViaStyle env sid doc = (true, d)) :
    d = doc ++ [{ id := sid, hasDataMethod := true, dataSite := none }] := by
  unfold V3.injectViaStyle at h
  split at h
  · exact absurd ((Prod.mk.injEq _ _ _ _).mp h).1 (by simp)
  · exact ((Prod.mk.injEq _ _ _ _).mp h).2.symm

/-- A verified external-link injection appended one artifact. -/
theorem V3.injectViaExternalLink_true (env : V3.DomEnv) (sid : String) (doc d : List Elem)
    (h : V3.injectViaExternalLink env sid doc = (true, d)) :
    d = doc ++ [{ id := sid, hasDataMethod := true, dataSite := none }] := by
  unfold V3.injectViaExternalLink at h
  split at h
  · exact absurd ((Prod.mk.injEq _ _ _ _).mp h).1 (by simp)
  · split at h
    · exact ((Prod.mk.injEq _ _ _ _).mp h).2.symm
    · split at h
      · exact absurd ((Prod.mk.injEq _ _ _ _).mp h).1 (by simp)
      · exact absurd ((Prod.mk.injEq _ _ _ _).mp h).1 (by simp)

/-- A successful method loop leaves the document extended by one artifact
carrying the style id. -/
theorem V3.applyMethods_true (env : V3.DomEnv) (sid : String) (doc d : List Elem)
    (h : V3.applyMethods env sid doc = (true, d)) :
    ∃ pre, d = pre ++ [{ id := sid, hasDataMethod := true, dataSite := none }] := by
  unfold V3.applyMethods at h
  rcases h1 : V3.injectViaBlob env sid doc with ⟨b1, d1⟩
  rw [h1] at h
  rcases b1 with _ | _
  · simp only at h
    rcases h2 : V3.injectViaStyle env sid d1 with ⟨b2, d2⟩
    rw [h2] at h
    rcases b2 with _ | _
    · simp only at h
      exact ⟨d2, V3.injectViaExternalLink_true env sid d2 d h⟩
    · simp only at h
      have hd : d2 = d := ((Prod.mk.injEq _ _ _ _).mp h).2
      exact ⟨d1, hd ▸ V3.injectViaStyle_true env sid d1 d2 h2⟩
  · simp only at h
    have hd : d1 = d := ((Prod.mk.injEq _ _ _ _).mp h).2
    exact ⟨doc, hd ▸ V3.injectViaBlob_true env sid doc d1 h1⟩

end DomLemmas

section MoreHelpers

/-- Erasing the first match twice is the same as erasing it once when at
most one element matches. -/
theorem eraseP_eraseP_of_countP_le_one {α : Type} (p : α → Bool) :
    ∀ l : List α, l.countP p ≤ 1 → (l.eraseP p).eraseP p = l.eraseP p := by
  intro l
  induction l with
  | nil => intro _; rfl
  | cons x xs ih =>
    intro hc
    by_cases hx : p x = true
    · rw [List.eraseP_cons_of_pos hx]
      have hzero : xs.countP p = 0 := by
        rw [List.countP_cons_of_pos _ _ hx] at hc
        omega
      exact List.eraseP_of_forall_not (List.countP_eq_zero.mp hzero)
    · have hx2 : ¬ p x = true := hx
      rw [List.eraseP_cons_of_neg hx2, List.eraseP_cons_of_neg hx2]
      rw [List.countP_cons_of_neg _ _ hx2] at hc
      rw [ih hc]

/-- `styleManager.apply` (v2) never lets an exception escape: every branch
returns an `ok` boolean. -/
theorem V2.apply_isOk (net : String → Option String) (stored : Option V2.CacheData)
    (now : Nat) (site : V2.Site) (isBerry isChatGPT domOk blobOk : Bool) :
    (V2.apply net stored now site isBerry isChatGPT domOk blobOk).isOk = true := by
  unfold V2.apply
  rcases V2.fetchCSS net stored now site isBerry with _ | css
  · simp only
    split <;> rfl
  · simp only
    split <;> rfl

end MoreHelpers

section Demos

/-- A small v2 profile without inline fallback (like claude.ai). -/
def site2Demo : V2.Site := ⟨"ChatGPT", "url-p", "url-b", none⟩

/-- A small v2 profile with inline fallback CSS (like chatgpt.com). -/
def site2FbDemo : V2.Site := ⟨"ChatGPT", "url-p", "url-b", some "body \x7b background: red \x7d"⟩

/-- A small v3 profile. -/
def site3Demo : V3.Site := ⟨"ChatGPT", "url-p", some "url-f", "sid", "key", "v3.0"⟩

/-- A small v4 profile with three CDN candidates. -/
def site4Demo : V4.Site := ⟨"ChatGPT", ["url-a", "url-b", "url-u"], "sid", "key"⟩

/-- An idle v4 state. -/
def st4Demo : V4.St := ⟨none, true, false, none, []⟩

/-- A v4 state with a fetch already in flight. -/
def st4BusyDemo : V4.St := ⟨none, true, true, none, []⟩

/-- A v4 state remembering that the third CDN candidate succeeded. -/
def st4PromotedDemo : V4.St := ⟨none, true, false, some "url-u", []⟩

/-- A plausible stylesheet body. -/
def cssDemo : String := "body \x7b color: red \x7d"

end Demos

/-- C5: storing a CSS string with the cache set operation and reading it
back with the cache get operation within the TTL, with the profile's
configuration (URL, version) unchanged in between, returns the identical
string — in all three variants of the cache. -/
theorem c5_cache_round_trip (site2 : V2.Site) (site3 : V3.Site) (s4 : V4.St)
    (css url : String) (tset tget : Nat)
    (h12 : tget - tset ≤ V2.CACHE_DURATION) (h24 : tget - tset ≤ V4.CACHE_DURATION) :
    V2.getCachedCSS (some (V2.setCachedCSS site2 css tset)) tget = some css ∧
    V3.getCachedCSS site3 (some (V3.setCachedCSS site3 css tset)) tget = some css ∧
    (V4.getFromCache (some (some (V4.saveToCache css url tset))) tget s4).1 = some css := by
  have hne2 : ¬ (tget - tset > V2.CACHE_DURATION) := by omega
  have hne3 : ¬ (tget - tset > V3.CACHE_DURATION) := hne2
  have hne4 : ¬ (tget - tset > V4.CACHE_DURATION) := by omega
  refine ⟨?_, ?_, ?_⟩
  · simp only [V2.getCachedCSS, V2.setCachedCSS]
    rw [if_neg hne2]
  · simp only [V3.getCachedCSS, V3.setCachedCSS]
    simp [hne3]
  · simp only [V4.getFromCache, V4.saveToCache]
    rw [if_neg hne4]

/-- C5 witness: a concrete round trip through each variant's cache. -/
theorem c5_cache_round_trip_witness :
    V2.getCachedCSS (some (V2.setCachedCSS site2Demo cssDemo 0)) 1000 = some cssDemo ∧
    V3.getCachedCSS site3Demo (some (V3.setCachedCSS site3Demo cssDemo 0)) 1000 = some cssDemo ∧
    (V4.getFromCache (some (some (V4.saveToCache cssDemo "url-u" 0))) 1000 st4Demo).1 =
      some cssDemo :=
  c5_cache_round_trip site2Demo site3Demo st4Demo cssDemo "url-u" 0 1000
    (by decide) (by decide)

/-- C8: a cache entry whose stored timestamp is older than the configured
cache duration at read time is treated as absent by the get operation, in
all three variants, regardless of the stored content. -/
theorem c8_cache_expiry (now : Nat) (d2 : V2.CacheData) (site3 : V3.Site)
    (d3 : V3.CacheData) (e4 : V4.CacheEntry) (s4 : V4.St)
    (h2 : now - d2.timestamp > V2.CACHE_DURATION)
    (h3 : now - d3.timestamp > V3.CACHE_DURATION)
    (h4 : now - e4.timestamp > V4.CACHE_DURATION) :
    V2.getCachedCSS (some d2) now = none ∧
    V3.getCachedCSS site3 (some d3) now = none ∧
    (V4.getFromCache (some (some e4)) now s4).1 = none := by
  refine ⟨?_, ?_, ?_⟩
  · simp only [V2.getCachedCSS]
    rw [if_pos h2]
  · simp only [V3.getCachedCSS]
    by_cases hu : (d3.url != site3.styleURL) = true
    · rw [if_pos hu]
    · rw [if_neg hu, if_pos h3]
  · simp only [V4.getFromCache]
    rw [if_pos h4]

/-- C8 witness: a day-old v2/v3 entry and a three-day-old v4 entry are all
reported absent. -/
theorem c8_cache_expiry_witness :
    V2.getCachedCSS (some ⟨cssDemo, 0, "url-p"⟩) 90000000 = none ∧
    V3.getCachedCSS site3Demo (some ⟨cssDemo, 0, "url-p", "v3.0", 0⟩) 90000000 = none ∧
    (V4.getFromCache (some (some ⟨cssDemo, 0, "url-u"⟩)) 90000000 st4Demo).1 = none :=
  c8_cache_expiry 90000000 ⟨cssDemo, 0, "url-p"⟩ site3Demo ⟨cssDemo, 0, "url-p", "v3.0", 0⟩
    ⟨cssDemo, 0, "url-u"⟩ st4Demo (by decide) (by decide) (by decide)

/-- C9: when no enabled/disabled flag was ever persisted for a profile —
the storage key is absent or reading/parsing it fails — the enabled query
returns true (v3 `getCurrentSiteEnabled` and v4 `getEnabled`). -/
theorem c9_enabled_defaults_true (stored : Option (Option Bool))
    (h : stored = none ∨ stored = some none) :
    V3.getCurrentSiteEnabled stored = true ∧ V4.getEnabled stored = true := by
  rcases h with h | h <;> subst h <;>
    exact ⟨rfl, rfl⟩

/-- C9 witness: with the key absent both queries return true. -/
theorem c9_enabled_defaults_true_witness :
    V3.getCurrentSiteEnabled none = true ∧ V4.getEnabled none = true :=
  c9_enabled_defaults_true none (Or.inl rfl)

/-- C2 counterexample: in the v2.2 variant the cache get operation ignores
the URL recorded in the entry.  With a profile whose configured source URL
is `url-p`, an unexpired entry recorded under the different URL `url-old`
is still returned — not treated as invalidated — refuting the claim for
that variant's get operation. -/
theorem c2_counterexample :
    site2Demo.styleURL ≠ "url-old" ∧
    (0 : Nat) - 0 ≤ V2.CACHE_DURATION ∧
    V2.getCachedCSS (some ⟨cssDemo, 0, "url-old"⟩) 0 = some cssDemo := by
  refine ⟨by decide, by decide, rfl⟩

/-- C2 amended: only the v3 variant invalidates on a configured-URL
change: its `getCachedCSS` returns absent whenever the entry's recorded
URL differs from the profile's `styleURL`, even within the TTL.  The v2.2
and v4 gets check only the TTL and return an unexpired entry's content
regardless of the URL recorded in it. -/
theorem c2_url_change_invalidation (site3 : V3.Site) (d3 : V3.CacheData) (now : Nat)
    (h : d3.url ≠ site3.styleURL) :
    V3.getCachedCSS site3 (some d3) now = none ∧
    (∀ (d2 : V2.CacheData) (t2 : Nat), t2 - d2.timestamp ≤ V2.CACHE_DURATION →
      V2.getCachedCSS (some d2) t2 = some d2.css) ∧
    (∀ (e4 : V4.CacheEntry) (t4 : Nat) (s4 : V4.St), t4 - e4.timestamp ≤ V4.CACHE_DURATION →
      (V4.getFromCache (some (some e4)) t4 s4).1 = some e4.css) := by
  refine ⟨?_, ?_, ?_⟩
  · simp only [V3.getCachedCSS]
    rw [if_pos (bne_iff_ne.mpr h)]
  · intro d2 t2 ht
    simp only [V2.getCachedCSS]
    rw [if_neg (by omega)]
  · intro e4 t4 s4 ht
    simp only [V4.getFromCache]
    rw [if_neg (by omega)]

/-- C2 amended witness: an entry recorded under `url-old` against a
profile configured with `url-p` is absent in v3. -/
theorem c2_url_change_invalidation_witness :
    V3.getCachedCSS site3Demo (some ⟨cssDemo, 0, "url-old", "v3.0", 0⟩) 0 = none :=
  (c2_url_change_invalidation site3Demo ⟨cssDemo, 0, "url-old", "v3.0", 0⟩ 0
    (by decide)).1

/-- C3: a `fetchCSS` call that begins while another is in flight
(`state.isFetching` already true) returns immediately with no result,
leaves the state untouched — in particular the attempt log, so no network
attempt is issued — and writes nothing to the cache.  Likewise the v3
`styleManager.apply` bails out while `state.isLoading` is set. -/
theorem c3_inflight_no_second_walk (net : String → String → Option String)
    (stored : Option (Option V4.CacheEntry)) (now : Nat) (site : V4.Site) (s : V4.St)
    (h : s.isFetching = true) :
    V4.fetchCSS net stored now site s = (none, s, none) ∧
    (V4.fetchCSS net stored now site s).2.1.fetchAttempts = s.fetchAttempts ∧
    (∀ (env : V3.DomEnv) (enabled throttled : Bool) (css : Option String)
       (sid domain : String) (doc : List Elem),
      V3.apply env enabled true throttled css sid domain doc = (false, doc)) := by
  have hmain : V4.fetchCSS net stored now site s = (none, s, none) := by
    unfold V4.fetchCSS
    rw [if_pos h]
  refine ⟨hmain, by rw [hmain], ?_⟩
  intro env enabled throttled css sid domain doc
  unfold V3.apply
  simp

/-- C3 witness: with the flag raised, a concrete second call performs no
attempt. -/
theorem c3_inflight_no_second_walk_witness :
    V4.fetchCSS (fun _ _ => none) none 0 site4Demo st4BusyDemo =
      (none, st4BusyDemo, none) ∧
    V3.apply ⟨true, true, false, true, false⟩ true true false (some cssDemo)
      "sid" "chatgpt.com" [] = (false, []) :=
  ⟨(c3_inflight_no_second_walk (fun _ _ => none) none 0 site4Demo st4BusyDemo rfl).1,
   (c3_inflight_no_second_walk (fun _ _ => none) none 0 site4Demo st4BusyDemo rfl).2.2
     ⟨true, true, false, true, false⟩ true false (some cssDemo) "sid" "chatgpt.com" []⟩

/-- C10: in the v4 variant, whenever `fetchCSS` actually runs a cycle
(the flag was down when it started), every return path — cache hit,
success from some source, and total exhaustion — leaves `state.isFetching`
false again, so a completed cycle never blocks later calls. -/
theorem c10_isFetching_cleared (net : String → String → Option String)
    (stored : Option (Option V4.CacheEntry)) (now : Nat) (site : V4.Site) (s : V4.St)
    (h : s.isFetching = false) :
    (V4.fetchCSS net stored now site s).2.1.isFetching = false := by
  unfold V4.fetchCSS
  rw [if_neg (by simp [h])]
  split
  · rfl
  · split
    · rfl
    · rfl

/-- C10 witness: an exhausted concrete cycle ends with the flag down. -/
theorem c10_isFetching_cleared_witness :
    (V4.fetchCSS (fun _ _ => none) none 0 site4Demo st4Demo).2.1.isFetching = false :=
  c10_isFetching_cleared (fun _ _ => none) none 0 site4Demo st4Demo rfl

/-- C4 counterexample: not every variant's retrieval attempt enforces the
shape check.  The v3 `fetchDirect` counts an attempt successful for the
body `abcdef` — which contains no brace and is shorter than the length
floor — as long as the status is 200 and the body is non-empty after
trimming, refuting the claim for the v3 attempt paths. -/
theorem c4_counterexample :
    V3.fetchDirect (fun _ => some (200, "abcdef")) "url-p" = some "abcdef" ∧
    containsBrace "abcdef" = false ∧
    jsLen "abcdef" < 10 := by
  refine ⟨rfl, by decide, by decide⟩

/-- C4 amended: the full shape check — non-empty after trimming, length at
least 10, and at least one brace — is enforced exactly by the v4
`fetchFromURL`: an attempt it counts successful always satisfies all
three.  The v3 direct and GM paths only require an ok status and a body
that is non-empty after trimming (no length floor, no brace check). -/
theorem c4_attempt_validation (net : String → String → Option String)
    (url method : String) (s : V4.St) (css : String)
    (h : (V4.fetchFromURL net url method s).1 = some css) :
    jsTrimLen css ≠ 0 ∧ 10 ≤ jsLen css ∧ containsBrace css = true ∧
    (∀ (net3 : String → Option (Nat × String)) (u body : String),
      V3.fetchDirect net3 u = some body → jsTrimLen body ≠ 0) ∧
    (∀ (gm : Option (Nat × String)) (body : String),
      V3.fetchViaGM gm = some body → jsTrimLen body ≠ 0) := by
  have hmain : jsTrimLen css ≠ 0 ∧ 10 ≤ jsLen css ∧ containsBrace css = true := by
    unfold V4.fetchFromURL at h
    split at h
    · simp at h
    · rename_i body hn
      split at h
      · simp at h
      · split at h
        · simp at h
        · rename_i h1 h2
          have hb : body = css := by simpa using h
          subst hb
          refine ⟨by simpa using h1, ?_, ?_⟩
          · have h3 := Bool.or_eq_false_iff.mp (Bool.of_not_eq_true h2)
            have := h3.1
            simp at this
            omega
          · have h3 := Bool.or_eq_false_iff.mp (Bool.of_not_eq_true h2)
            have := h3.2
            simpa using this
  refine ⟨hmain.1, hmain.2.1, hmain.2.2, ?_, ?_⟩
  · intro net3 u body hd
    unfold V3.fetchDirect at hd
    split at hd
    · simp at hd
    · split at hd
      · simp at hd
      · split at hd
        · simp at hd
        · rename_i hz
          have hbb := Option.some.inj hd
          rw [hbb] at hz
          simpa using hz
  · intro gm body hg
    unfold V3.fetchViaGM at hg
    split at hg
    · simp at hg
    · split at hg
      · split at hg
        · simp at hg
        · rename_i hz
          have hbb := Option.some.inj hg
          rw [hbb] at hz
          simpa using hz
      · simp at hg

/-- C4 amended witness: a concrete accepted v4 attempt satisfies the full
shape check. -/
theorem c4_attempt_validation_witness :
    jsTrimLen cssDemo ≠ 0 ∧ 10 ≤ jsLen cssDemo ∧ containsBrace cssDemo = true :=
  have h := c4_attempt_validation (fun _ _ => some cssDemo) "url-p" "fetch" st4Demo cssDemo
    (by decide)
  ⟨h.1, h.2.1, h.2.2.1⟩

/-- C7: `isApplied` is true immediately after a successful `apply` and
false immediately after `remove`; `remove` is idempotent — calling it with
nothing applied, or twice in a row, is a total no-error operation leaving
`isApplied` false both times.  The hypothesis states the artifact
invariant: every element bearing the style id was injected by the script
(carries `data-method`).  The final two conjuncts are the v4
`styleInjector.remove` analogues: a no-op without an artifact, idempotent
when at most one element bears the id. -/
theorem c7_apply_remove_isApplied (env : V3.DomEnv) (sid domain : String)
    (doc : List Elem)
    (hart : ∀ e ∈ doc, e.id = sid → e.hasDataMethod = true) :
    (∀ (enabled isLoading throttled : Bool) (css : Option String) (d : List Elem),
      V3.apply env enabled isLoading throttled css sid domain doc = (true, d) →
      V3.isApplied sid d = true) ∧
    V3.isApplied sid (V3.removeStyles sid domain doc) = false ∧
    V3.isApplied sid (V3.removeStyles sid domain (V3.removeStyles sid domain doc)) = false ∧
    V3.removeStyles sid domain (V3.removeStyles sid domain doc) =
      V3.removeStyles sid domain doc ∧
    (∀ doc4 : List Elem, (∀ e ∈ doc4, e.id ≠ sid) → V4.removeStyle sid doc4 = doc4) ∧
    (∀ doc4 : List Elem, doc4.countP (fun e => e.id == sid) ≤ 1 →
      V4.removeStyle sid (V4.removeStyle sid doc4) = V4.removeStyle sid doc4) := by
  have hart2 : ∀ e ∈ V3.removeStyles sid domain doc, e.id = sid → e.hasDataMethod = true :=
    fun e he => hart e (V3.mem_of_mem_removeStyles he)
  refine ⟨?_, V3.isApplied_removeStyles sid domain doc hart,
    V3.isApplied_removeStyles sid domain _ hart2,
    V3.removeStyles_idem sid domain doc hart, ?_, ?_⟩
  · intro enabled isLoading throttled css d h
    simp only [V3.apply] at h
    split at h
    · simp at h
    · split at h
      · simp at h
      · split at h
        · simp at h
        · split at h
          · simp at h
          · obtain ⟨pre, hpre⟩ := V3.applyMethods_true env sid _ d h
            rw [V3.isApplied_eq_true_iff]
            refine ⟨{ id := sid, hasDataMethod := true, dataSite := none }, ?_, rfl⟩
            rw [hpre]
            exact List.mem_append_right _ (List.mem_singleton.mpr rfl)
  · intro doc4 hnone
    exact List.eraseP_of_forall_not
      (fun e he hbeq => hnone e he (beq_iff_eq.mp hbeq))
  · intro doc4 hcount
    exact eraseP_eraseP_of_countP_le_one _ doc4 hcount

/-- C7 witness: concrete apply/remove round trip on a one-artifact
document. -/
theorem c7_apply_remove_isApplied_witness :
    V3.isApplied "sid" (V3.removeStyles "sid" "chatgpt.com"
      [⟨"sid", true, none⟩]) = false ∧
    V3.isApplied "sid" (V3.removeStyles "sid" "chatgpt.com"
      (V3.removeStyles "sid" "chatgpt.com" [⟨"sid", true, none⟩])) = false ∧
    V3.isApplied "sid"
      ((V3.apply ⟨true, true, false, true, false⟩ true false false (some cssDemo)
        "sid" "chatgpt.com" [⟨"sid", true, none⟩]).2) = true :=
  have h := c7_apply_remove_isApplied ⟨true, true, false, true, false⟩ "sid" "chatgpt.com"
    [⟨"sid", true, none⟩] (by decide)
  ⟨h.2.1, h.2.2.1,
   h.1 true false false (some cssDemo) _ (by decide)⟩

section PromotionHelpers

/-- When the remembered CDN is the third configured candidate, the
optimized order moves it to the front of the other candidates. -/
theorem V4.optimize_third (site : V4.Site) (s : V4.St) (a b u : String)
    (rest : List String) (hcdn : site.cdnURLs = a :: b :: u :: rest)
    (ha : a ≠ u) (hb : b ≠ u) (hsucc : s.successfulCDN = some u) :
    V4.getOptimizedCDNOrder site s = u :: a :: b :: rest := by
  have hba : (a == u) = false := beq_eq_false_iff_ne.mpr ha
  have hbb : (b == u) = false := beq_eq_false_iff_ne.mpr hb
  have hidx : V4.jsIndexOf site.cdnURLs u = 2 := by
    rw [hcdn]
    simp [V4.jsIndexOf, hba, hbb]
  unfold V4.getOptimizedCDNOrder
  rw [hsucc]
  simp only [hidx]
  rw [if_pos (by norm_num), hcdn]
  rfl

/-- On a cache miss with the flag down, the first attempt `fetchCSS`
logs targets the head of the optimized CDN order, via `fetch`. -/
theorem V4.fetchCSS_first_attempt (net : String → String → Option String)
    (now : Nat) (site : V4.Site) (s : V4.St) (u : String) (us : List String)
    (hflag : s.isFetching = false)
    (horder : V4.getOptimizedCDNOrder site
      { s with isFetching := true, fetchAttempts := [] } = u :: us) :
    ∃ ok l, (V4.fetchCSS net none now site s).2.1.fetchAttempts =
      { url := u, method := "fetch", success := ok } :: l := by
  unfold V4.fetchCSS
  rw [if_neg (by simp [hflag])]
  split
  · rename_i css s2 heq
    simp [V4.getFromCache] at heq
  · rename_i s2 heq
    have hs2 : ({ s with isFetching := true, fetchAttempts := [] } : V4.St) = s2 := by
      simpa [V4.getFromCache] using heq
    split
    · rename_i r s3 heq2
      rw [← hs2, horder] at heq2
      obtain ⟨ok, l, hl⟩ := V4.tryRounds_first net u us 1
        { s with isFetching := true, fetchAttempts := [] }
      have hlX : (V4.tryRounds net (u :: us) V4.MAX_RETRIES
          { s with isFetching := true, fetchAttempts := [] }).2.fetchAttempts =
          ({ s with isFetching := true, fetchAttempts := [] } : V4.St).fetchAttempts ++
            ({ url := u, method := "fetch", success := ok } :: l) := hl
      rw [heq2] at hlX
      exact ⟨ok, l, hlX⟩
    · rename_i s3 heq2
      rw [← hs2, horder] at heq2
      obtain ⟨ok, l, hl⟩ := V4.tryRounds_first net u us 1
        { s with isFetching := true, fetchAttempts := [] }
      have hlX : (V4.tryRounds net (u :: us) V4.MAX_RETRIES
          { s with isFetching := true, fetchAttempts := [] }).2.fetchAttempts =
          ({ s with isFetching := true, fetchAttempts := [] } : V4.St).fetchAttempts ++
            ({ url := u, method := "fetch", success := ok } :: l) := hl
      rw [heq2] at hlX
      exact ⟨ok, l, hlX⟩

end PromotionHelpers

/-- C6: if the previous cycle succeeded from the profile's third candidate
URL (so `state.successfulCDN` remembers it — last conjunct: a successful
`fetchFromURL` on a URL records exactly that URL), then a next `fetchCSS`
cycle run with the cache cleared both promotes that URL to the front of
the candidate order and directs its very first logged attempt at it,
ahead of the configured priority order. -/
theorem c6_cdn_promotion (net : String → String → Option String) (now : Nat)
    (site : V4.Site) (s : V4.St) (a b u : String) (rest : List String)
    (hcdn : site.cdnURLs = a :: b :: u :: rest) (ha : a ≠ u) (hb : b ≠ u)
    (hflag : s.isFetching = false) (hsucc : s.successfulCDN = some u) :
    V4.getOptimizedCDNOrder site s = u :: a :: b :: rest ∧
    ((V4.fetchCSS net none now site s).2.1.fetchAttempts).head?.map
      (fun att => att.url) = some u ∧
    (∀ (m : String) (s0 : V4.St) (css : String),
      (V4.fetchFromURL net u m s0).1 = some css →
      (V4.fetchFromURL net u m s0).2.successfulCDN = some u) := by
  have hsucc1 : ({ s with isFetching := true, fetchAttempts := [] } : V4.St).successfulCDN
      = some u := hsucc
  have horder := V4.optimize_third site
    { s with isFetching := true, fetchAttempts := [] } a b u rest hcdn ha hb hsucc1
  refine ⟨V4.optimize_third site s a b u rest hcdn ha hb hsucc, ?_, ?_⟩
  · obtain ⟨ok, l, hl⟩ := V4.fetchCSS_first_attempt net now site s u (a :: b :: rest)
      hflag horder
    rw [hl]
    rfl
  · intro m s0 css h
    unfold V4.fetchFromURL at h ⊢
    split at h
    · simp at h
    · split at h
      · simp at h
      · split at h
        · simp at h
        · rename_i body hn h1 h2
          rw [if_neg h1, if_neg h2]

/-- C6 witness: with the third demo candidate remembered, the next
cache-cleared cycle attempts it first. -/
theorem c6_cdn_promotion_witness :
    V4.getOptimizedCDNOrder site4Demo st4PromotedDemo = ["url-u", "url-a", "url-b"] ∧
    ((V4.fetchCSS (fun _ _ => none) none 0 site4Demo st4PromotedDemo).2.1.fetchAttempts).head?.map
      (fun att => att.url) = some "url-u" :=
  have h := c6_cdn_promotion (fun _ _ => none) 0 site4Demo st4PromotedDemo
    "url-a" "url-b" "url-u" [] rfl (by decide) (by decide) rfl rfl
  ⟨h.1, h.2.1⟩

/-- C1: in a fetch cycle where every candidate URL × transport attempt
fails, `fetchCSS` returns the profile's configured inline fallback CSS
when one is configured and otherwise fails with its single exhaustion
condition; no error escapes the pipeline's top-level entry
(`styleManager.apply` always returns an ok boolean).  Stated for the v2.2
variant (the one with inline fallback configuration), for the v3 cascade
(single thrown exhaustion error), and for the v4 fetcher (plain `null`
result, no throw at all). -/
theorem c1_fetch_exhaustion
    (net2 : String → Option String) (stored2 : Option V2.CacheData) (now : Nat)
    (site2 : V2.Site) (berry chat domOk blobOk : Bool)
    (hasGrants isBerry3 : Bool) (gm : Option (Nat × String))
    (bnet : String → Option String) (net3 : String → Option (Nat × String))
    (site3 : V3.Site)
    (net4 : String → String → Option String) (stored4 : Option (Option V4.CacheEntry))
    (now4 : Nat) (site4 : V4.Site) (s4 : V4.St)
    (hmiss : V2.getCachedCSS stored2 now = none)
    (hcand : ∀ u ∈ V2.candidateURLs site2 berry, net2 u = none)
    (hgm : gm = none)
    (hbnet : ∀ st ∈ V3.BERRY_STRATEGIES, bnet st = none)
    (hnet3 : ∀ u ∈ V3.candidateURLs site3, net3 u = none)
    (hflag : s4.isFetching = false)
    (hmiss4 : ∀ s : V4.St, (V4.getFromCache stored4 now4 s).1 = none)
    (hnet4 : ∀ u ∈ site4.cdnURLs, ∀ m, net4 u m = none) :
    (V2.fetchCSS net2 stored2 now site2 berry =
      match site2.berryFallbackCSS with
      | some fb => Except.ok fb
      | none => Except.error V2.FetchErr.exhausted) ∧
    (V2.apply net2 stored2 now site2 berry chat domOk blobOk).isOk = true ∧
    V3.fetchExternalCSS hasGrants isBerry3 gm bnet net3 site3 none =
      Except.error V3.FetchErr.exhausted ∧
    (V4.fetchCSS net4 stored4 now4 site4 s4).1 = none := by
  have hwalk : V2.tryURLs net2 (V2.candidateURLs site2 berry) = none :=
    V2.tryURLs_exhausted hcand
  refine ⟨?_, V2.apply_isOk net2 stored2 now site2 berry chat domOk blobOk,
    V3.fetchExternalCSS_exhausted hasGrants isBerry3 hgm hbnet hnet3, ?_⟩
  · unfold V2.fetchCSS
    rw [hmiss, hwalk]
  · unfold V4.fetchCSS
    rw [if_neg (by simp [hflag])]
    split
    · rename_i css s2 heq
      have := hmiss4 { s4 with isFetching := true, fetchAttempts := [] }
      rw [heq] at this
      simp at this
    · rename_i s2 heq
      split
      · rename_i r s3 heq2
        have hfail : ∀ u ∈ V4.getOptimizedCDNOrder site4 s2, ∀ m, net4 u m = none :=
          fun u hu m => hnet4 u (V4.mem_getOptimizedCDNOrder hu) m
        have := V4.tryRounds_fail hfail V4.MAX_RETRIES s2
        rw [heq2] at this
        simp at this
      · rfl

/-- C1 witness: with every transport failing, the v2 profile with inline
fallback returns it, the v3 cascade raises only its exhaustion error, the
v4 fetcher returns nothing, and `apply` still returns a boolean. -/
theorem c1_fetch_exhaustion_witness :
    V2.fetchCSS (fun _ => none) none 0 site2FbDemo true =
      Except.ok "body \x7b background: red \x7d" ∧
    (V2.apply (fun _ => none) none 0 site2FbDemo true true false false).isOk = true ∧
    V3.fetchExternalCSS true true none (fun _ => none) (fun _ => none) site3Demo none =
      Except.error V3.FetchErr.exhausted ∧
    (V4.fetchCSS (fun _ _ => none) none 0 site4Demo st4Demo).1 = none :=
  have h := c1_fetch_exhaustion (fun _ => none) none 0 site2FbDemo true true false false
    true true none (fun _ => none) (fun _ => none) site3Demo
    (fun _ _ => none) none 0 site4Demo st4Demo
    rfl (fun _ _ => rfl) rfl (fun _ _ => rfl) (fun _ _ => rfl) rfl
    (fun _ => rfl) (fun _ _ _ => rfl)
  ⟨h.1, h.2.1, h.2.2.1, h.2.2.2⟩
